import Mathlib

/-!
# rapid-api-kit — query-translation and CRUD-request engine, shallow embedding

This file embeds the core of the `rapid-api-kit` repository in Lean 4:

* the filter compiler of `createRouter` (the list-handler loop that turns raw
  query parameters into a storage predicate), in both observed variants
  (`src/createRouter.js` and the TypeScript `createRouter` source);
* the pagination arithmetic (`pageNum` / `limitNum` / `skip`) and the
  pagination response envelope;
* the attachment validator `validateFiles` / `isFileAccepted` and the
  create/replace/patch mutation handlers as event traces (storage calls,
  blob-store calls, response), including the blob rollback protocol;
* the distinct-values endpoint `GET /filters/:field`.

Modelling conventions:

* JavaScript numbers are modelled as exact fractions (`JSNum`, an integer
  numerator over a positive power-of-ten denominator as produced by decimal
  literals); comparisons are by cross-multiplication.  No claim in this
  development depends on floating-point rounding.
* Query-string values arrive as strings (`List (String × String)`); Express
  multi-valued parameters (arrays) are outside the modelled input space.
* JS objects used as dictionaries are modelled as insertion-ordered
  association lists.
* String algorithms (`startsWith`, `split`, `trim`, `toLowerCase`,
  `localeCompare` on ASCII data) are implemented on the character list
  underlying the Lean `String`.
-/

/-- An exact JavaScript number: numerator over a positive denominator
(the parser below always produces a power of ten).  Value semantics
(equality, order) are given by cross-multiplication, not structurally. -/
structure JSNum where
  num : Int
  den : Nat
deriving DecidableEq

/-- Embed an integer as a `JSNum`. -/
def JSNum.int (n : Int) : JSNum := ⟨n, 1⟩

/-- Value equality of two JS numbers (cross-multiplication). -/
def JSNum.eqb (a b : JSNum) : Bool := a.num * b.den == b.num * a.den

/-- Value order of two JS numbers (cross-multiplication; denominators are
positive by construction). -/
def JSNum.ltb (a b : JSNum) : Bool := a.num * b.den < b.num * a.den

/-- The rational value denoted by a `JSNum`. -/
def JSNum.val (a : JSNum) : ℚ := (a.num : ℚ) / (a.den : ℚ)

/-- A JavaScript value as it appears in compiled storage predicates and
stored documents: a (finite) number or a string. -/
inductive JSVal where
  | num (q : JSNum)
  | str (s : String)
deriving DecidableEq

/-! ## JS primitive string operations

The source uses `key.startsWith("_")`, `value.startsWith("/")`,
`value.endsWith("/")`, `value.slice(1, -1)`, `accept.split(",")`,
`.trim()`, `.toLowerCase()`.  We model them directly on the underlying
character list of the Lean `String`. -/

/-- Model of `s.startsWith(c)` for a single character `c`. -/
def headIs (c : Char) (s : String) : Bool :=
  match s.data with
  | [] => false
  | d :: _ => d == c

/-- Model of `s.endsWith(c)` for a single character `c`. -/
def lastIs (c : Char) (s : String) : Bool :=
  match s.data.getLast? with
  | none => false
  | some d => d == c

/-- Model of `value.slice(1, -1)`: drop the first and last character (empty when the
string has fewer than two characters, like the JS original). -/
def sliceInner (s : String) : String :=
  String.mk ((s.data.drop 1).dropLast)

/-- Whitespace recognised by JS `Number()` / `parseInt()` / `trim()`.  (The
full JS definition also strips rarer Unicode space characters; the inputs
relevant to this development use only these.) -/
def isJSWhitespace (c : Char) : Bool :=
  c == ' ' || c == '\t' || c == '\n' || c == '\r'

/-- Trim leading and trailing JS whitespace from a character list. -/
def trimChars (l : List Char) : List Char :=
  ((l.dropWhile isJSWhitespace).reverse.dropWhile isJSWhitespace).reverse

/-- ASCII lower-casing of one character (`String.prototype.toLowerCase` on
the ASCII data appearing in MIME types and file extensions). -/
def lowerChar (c : Char) : Char := c.toLower

/-- Model of `s.toLowerCase()` on the character list. -/
def lowerChars (l : List Char) : List Char := l.map lowerChar

/-- Model of `s.split(",")` on the character list: split at every comma. -/
def splitComma : List Char → List (List Char)
  | [] => [[]]
  | c :: rest =>
    let groups := splitComma rest
    if c == ',' then [] :: groups
    else
      match groups with
      | [] => [[c]]
      | g :: gs => (c :: g) :: gs

/-- Numeric value of a digit run (base 10). -/
def natOfDigits (ds : List Char) : Nat :=
  ds.foldl (fun n c => 10 * n + (c.toNat - 48)) 0

/-- Model of `Number(s)` for a string `s`, as used by the filter compiler's
`isNaN(Number(strValue)) ? strValue : Number(strValue)` coercion:
`some q` models a non-NaN result `q`, `none` models NaN.

Faithful to JS on the decimal forms: surrounding whitespace is trimmed, the
empty (or all-whitespace) string converts to `0`, an optional sign is
followed by a decimal mantissa (digits, optionally with a fractional part;
at least one digit overall) and an optional exponent.  The exotic forms
`Infinity` and radix-prefixed literals (`0x…`, `0o…`, `0b…`) are outside
the modelled input space and are treated as non-numeric. -/
def jsNumber (s : String) : Option JSNum :=
  let l := trimChars s.data
  if l.isEmpty then some (JSNum.int 0)
  else
    let (neg, l₁) : Bool × List Char :=
      match l with
      | '+' :: r => (false, r)
      | '-' :: r => (true, r)
      | r => (false, r)
    let intDigits := l₁.takeWhile Char.isDigit
    let l₂ := l₁.dropWhile Char.isDigit
    let (fracDigits, l₃) : List Char × List Char :=
      match l₂ with
      | '.' :: r => (r.takeWhile Char.isDigit, r.dropWhile Char.isDigit)
      | r => ([], r)
    if intDigits.isEmpty && fracDigits.isEmpty then none
    else
      -- mantissa = intPart.fracPart as the fraction mNum / mDen
      let mNum : Nat := natOfDigits intDigits * 10 ^ fracDigits.length + natOfDigits fracDigits
      let mDen : Nat := 10 ^ fracDigits.length
      let signed : Int → Int := fun n => if neg then -n else n
      match l₃ with
      | [] => some ⟨signed mNum, mDen⟩
      | e :: r =>
        if e == 'e' || e == 'E' then
          let (eneg, r₁) : Bool × List Char :=
            match r with
            | '+' :: t => (false, t)
            | '-' :: t => (true, t)
            | t => (false, t)
          let expDigits := r₁.takeWhile Char.isDigit
          let r₂ := r₁.dropWhile Char.isDigit
          if expDigits.isEmpty || !r₂.isEmpty then none
          else
            let p : Nat := 10 ^ natOfDigits expDigits
            some (if eneg then ⟨signed mNum, mDen * p⟩ else ⟨signed (mNum * p), mDen⟩)
        else none

/-- Model of `parseInt(s)` (radix 10): leading whitespace is skipped, an optional
sign is followed by a maximal run of decimal digits; `none` models NaN
(no digit found).  Trailing garbage is ignored, as in JS.  Radix-prefixed
(`0x…`) inputs are outside the modelled input space. -/
def jsParseInt (s : String) : Option Int :=
  let l := s.data.dropWhile isJSWhitespace
  let (neg, l₁) : Bool × List Char :=
    match l with
    | '+' :: r => (false, r)
    | '-' :: r => (true, r)
    | r => (false, r)
  let digits := l₁.takeWhile Char.isDigit
  if digits.isEmpty then none
  else some (if neg then -(natOfDigits digits : Int) else (natOfDigits digits : Int))

/-! ## The two `isFilterable` variants

`src/createRouter.js` treats an empty `filterBy` as "no restriction",
the TypeScript `createRouter` treats it as "no filtering". -/

/-- The `isFilterable` helper of `src/createRouter.js`:
`if (filterBy.length === 0) return true; return filterBy.includes(field);` -/
def isFilterableJS (filterBy : List String) (field : String) : Bool :=
  if filterBy.isEmpty then true else filterBy.contains field

/-- The `isFilterable` helper of the TypeScript `createRouter`:
`if (filterBy.length === 0) return false; return filterBy.includes(field);` -/
def isFilterableTS (filterBy : List String) (field : String) : Bool :=
  if filterBy.isEmpty then false else filterBy.contains field

/-! ## Filter compiler -/

/-- The five operator suffixes recognised by
`key.match(/^(.+)_(gt|gte|lt|lte|ne)$/)`. -/
inductive FilterOp where
  | gt | gte | lt | lte | ne
deriving DecidableEq

/-- Operator decomposition on the reversed character list of a key.  The
anchored regex `^(.+)_(gt|gte|lt|lte|ne)$` admits at most one decomposition
(the five suffixes `_gt`, `_gte`, `_lt`, `_lte`, `_ne` are mutually
exclusive as string suffixes), namely: strip the operator suffix from the
end, and require a non-empty remainder for the `.+` group. -/
def opFromRev : List Char → Option (List Char × FilterOp)
  | 'e' :: 't' :: 'g' :: '_' :: rest =>
    if rest.isEmpty then none else some (rest, .gte)
  | 'e' :: 't' :: 'l' :: '_' :: rest =>
    if rest.isEmpty then none else some (rest, .lte)
  | 'e' :: 'n' :: '_' :: rest =>
    if rest.isEmpty then none else some (rest, .ne)
  | 't' :: 'g' :: '_' :: rest =>
    if rest.isEmpty then none else some (rest, .gt)
  | 't' :: 'l' :: '_' :: rest =>
    if rest.isEmpty then none else some (rest, .lt)
  | _ => none

/-- Model of `key.match(/^(.+)_(gt|gte|lt|lte|ne)$/)`: `some (field, op)` when
the key is an operator-suffixed filter key. -/
def opSuffix (key : String) : Option (String × FilterOp) :=
  (opFromRev key.data.reverse).map (fun p => (String.mk p.1.reverse, p.2))

/-- The per-field operator node built by `query[field][$operator] = v`:
a record of the `$gt`/`$gte`/`$lt`/`$lte`/`$ne` entries. -/
structure OpNode where
  gt : Option JSVal := none
  gte : Option JSVal := none
  lt : Option JSVal := none
  lte : Option JSVal := none
  ne : Option JSVal := none
deriving DecidableEq

/-- Write one operator entry into an operator node. -/
def OpNode.set (o : OpNode) (op : FilterOp) (v : JSVal) : OpNode :=
  match op with
  | .gt => { o with gt := some v }
  | .gte => { o with gte := some v }
  | .lt => { o with lt := some v }
  | .lte => { o with lte := some v }
  | .ne => { o with ne := some v }

/-- One compiled clause of the storage predicate, i.e. one value of the
`query` object: a scalar equality value, a case-insensitive regex node
(`{$regex, $options:"i"}`, possibly with operator entries later written
onto the same object), or a plain operator node. -/
inductive Clause where
  | scalar (v : JSVal)
  | regex (pat : String) (o : OpNode)
  | ops (o : OpNode)
deriving DecidableEq

/-- The compiled `query` object: a field-to-clause map in insertion order. -/
abbrev Query := List (String × Clause)

/-- The `query[field]` lookup. -/
def lookupField : Query → String → Option Clause
  | [], _ => none
  | (g, c) :: rest, f => if g = f then some c else lookupField rest f

/-- Assignment `query[field] = clause`: overwrite in place, or append a new
binding. -/
def setClause : Query → String → Clause → Query
  | [], f, c => [(f, c)]
  | (g, d) :: rest, f, c =>
    if g = f then (f, c) :: rest else (g, d) :: setClause rest f c

/-- JS truthiness of an existing `query[field]` value, as tested by
`if (!query[field]) query[field] = {}`: the number `0` and the empty
string are falsy, every object (regex or operator node) is truthy. -/
def Clause.truthy : Clause → Bool
  | .scalar (.num q) => !(q.eqb (JSNum.int 0))
  | .scalar (.str s) => s != ""
  | .regex _ _ => true
  | .ops _ => true

/-- The value coercion `isNaN(Number(strValue)) ? strValue : Number(strValue)`. -/
def coerceValue (s : String) : JSVal :=
  match jsNumber s with
  | some q => .num q
  | none => .str s

/-- Write an operator entry through `query[field]`, following the source:
`if (!query[field]) query[field] = {}` then `query[field]["$" + op] = v`.
A falsy existing value is replaced by a fresh node; an existing object gets
the entry written onto it.  (Writing a property onto a *truthy primitive*
is a silent no-op in the sloppy-mode `createRouter.js`; the strict-mode
TypeScript variant would throw there.  No verified property exercises that
corner; the no-op behaviour is embedded.) -/
def writeOp (q : Query) (f : String) (op : FilterOp) (v : JSVal) : Query :=
  match lookupField q f with
  | none => setClause q f (.ops ((({} : OpNode)).set op v))
  | some (.ops o) => setClause q f (.ops (o.set op v))
  | some (.regex pat o) => setClause q f (.regex pat (o.set op v))
  | some (.scalar w) =>
    if (Clause.scalar w).truthy then q
    else setClause q f (.ops ((({} : OpNode)).set op v))

/-- One iteration of the filter loop
`for (const [key, value] of Object.entries(filters))`, parameterised by the
filterability check (the two variants differ only there). -/
def compileStep (filterable : String → Bool) (q : Query) (key value : String) : Query :=
  if headIs '_' key then q          -- skip internal params
  else
    match opSuffix key with
    | some (field, op) =>
      if !filterable field then q   -- skip non-filterable fields
      else writeOp q field op (coerceValue value)
    | none =>
      if !filterable key then q     -- skip non-filterable fields
      else if headIs '/' value && lastIs '/' value then
        setClause q key (.regex (sliceInner value) {})
      else
        setClause q key (.scalar (coerceValue value))

/-- The full filter loop: compile the remaining query parameters (after
`page`, `limit`, `sort`, `fields`, `search` are destructured away) into the
`query` object, in input order. -/
def compileFilters (filterable : String → Bool) (params : List (String × String)) : Query :=
  params.foldl (fun q kv => compileStep filterable q kv.1 kv.2) []

/-- The TypeScript list handler's compiled predicate for a resource with
allowed filter fields `filterBy`. -/
def compileQuery (filterBy : List String) (params : List (String × String)) : Query :=
  compileFilters (isFilterableTS filterBy) params

/-- The `src/createRouter.js` list handler's compiled predicate. -/
def compileQueryJS (filterBy : List String) (params : List (String × String)) : Query :=
  compileFilters (isFilterableJS filterBy) params

/-! ## Predicate semantics

Satisfaction of a compiled predicate by a stored document, following the
storage engine's (MongoDB's) comparison rules on the modelled value space:
comparisons are type-bracketed (a range comparison between a number and a
string never matches), `$ne` matches whenever the value is not equal
(including a missing field), and `$regex` with the `i` option is modelled
as case-insensitive substring containment (the patterns in this development
contain no metacharacters). -/

/-- A stored document restricted to the modelled value space. -/
abbrev Document := List (String × JSVal)

/-- Field access on a document. -/
def docGet : Document → String → Option JSVal
  | [], _ => none
  | (g, v) :: rest, f => if g = f then some v else docGet rest f

/-- Type-bracketed strict order on JS values. -/
def JSVal.ltb : JSVal → JSVal → Bool
  | .num a, .num b => a.ltb b
  | .str a, .str b => a.data < b.data
  | _, _ => false

/-- Value equality on JS values (numbers by value, strings structurally). -/
def JSVal.eqb : JSVal → JSVal → Bool
  | .num a, .num b => a.eqb b
  | .str a, .str b => a == b
  | _, _ => false

/-- Does the (possibly missing) document value satisfy one operator entry? -/
def opEntryHolds (dv : Option JSVal) (op : FilterOp) (x : JSVal) : Bool :=
  match op, dv with
  | .gt, some v => x.ltb v
  | .gte, some v => x.ltb v || x.eqb v
  | .lt, some v => v.ltb x
  | .lte, some v => v.ltb x || v.eqb x
  | .ne, some v => !(v.eqb x)
  | .ne, none => true
  | _, none => false

/-- All entries of an operator node hold. -/
def OpNode.holds (o : OpNode) (dv : Option JSVal) : Bool :=
  (match o.gt with | none => true | some x => opEntryHolds dv .gt x) &&
  (match o.gte with | none => true | some x => opEntryHolds dv .gte x) &&
  (match o.lt with | none => true | some x => opEntryHolds dv .lt x) &&
  (match o.lte with | none => true | some x => opEntryHolds dv .lte x) &&
  (match o.ne with | none => true | some x => opEntryHolds dv .ne x)

/-- Contiguous-substring containment on character lists. -/
def infixOfChars (pat : List Char) : List Char → Bool
  | [] => pat.isEmpty
  | c :: rest => pat.isPrefixOf (c :: rest) || infixOfChars pat rest

/-- Case-insensitive substring containment (the model of `$regex` with
option `i` for metacharacter-free patterns). -/
def containsCI (s pat : String) : Bool :=
  infixOfChars (lowerChars pat.data) (lowerChars s.data)

/-- Satisfaction of one clause by the (possibly missing) field value. -/
def Clause.holds : Clause → Option JSVal → Bool
  | .scalar c, dv => dv == some c
  | .regex pat o, dv =>
    (match dv with
     | some (.str s) => containsCI s pat
     | _ => false) && o.holds dv
  | .ops o, dv => o.holds dv

/-- A document matches a compiled predicate when every clause holds. -/
def matchesQuery (q : Query) (doc : Document) : Bool :=
  q.all (fun p => p.2.holds (docGet doc p.1))

/-! ## Pagination arithmetic (list handler)

From the list handler:
`const pageNum = Math.max(1, parseInt(String(page)));`
`const limitNum = Math.min(100, Math.max(1, parseInt(String(limit))));`
`const skip = (pageNum - 1) * limitNum;`
`page` and `limit` default to `1` and `10` when absent from the query.
A `parseInt` result of NaN (modelled by `none`) propagates through
`Math.max` / `Math.min` and the product. -/

/-- The effective page number: `Math.max(1, parseInt(String(page)))`,
with the destructuring default `page = 1`. -/
def effectivePage (page : Option String) : Option Int :=
  (match page with
   | none => some 1
   | some s => jsParseInt s).map (fun n => max 1 n)

/-- The effective limit: `Math.min(100, Math.max(1, parseInt(String(limit))))`,
with the destructuring default `limit = 10`. -/
def effectiveLimit (limit : Option String) : Option Int :=
  (match limit with
   | none => some 10
   | some s => jsParseInt s).map (fun n => min 100 (max 1 n))

/-- The skip offset `(pageNum - 1) * limitNum` passed to the store. -/
def skipOffset (page limit : Option String) : Option Int :=
  match effectivePage page, effectiveLimit limit with
  | some p, some l => some ((p - 1) * l)
  | _, _ => none

/-- Model of `Math.ceil(a / b)` for integers with `b > 0` (used as
`Math.ceil(total / limitNum)`; floating point plays no role at the
modelled magnitudes). -/
def mathCeilDiv (a b : Int) : Int := -((-a) / b)

/-- The `pagination` object of a successful list response. -/
structure PaginationInfo where
  total : Int
  page : Int
  limit : Int
  totalPages : Int
  hasNext : Bool
  hasPrev : Bool
deriving DecidableEq

/-- The pagination envelope built by the list handler:
`totalPages = Math.ceil(total / limitNum)`,
`hasNext = pageNum < Math.ceil(total / limitNum)`, `hasPrev = pageNum > 1`. -/
def buildPagination (total pageNum limitNum : Int) : PaginationInfo :=
  { total := total
    page := pageNum
    limit := limitNum
    totalPages := mathCeilDiv total limitNum
    hasNext := decide (pageNum < mathCeilDiv total limitNum)
    hasPrev := decide (pageNum > 1) }

/-! ## Distinct-values endpoint (`GET /filters/:field`)

The route is registered only when `filterBy.length > 0`.  The handler
rejects non-filterable fields with a 400 naming the allowed fields, and
otherwise sorts the store-returned distinct values with the comparator

`(a, b) => { if (typeof a === "string" && typeof b === "string") return
a.localeCompare(b); if (typeof a === "number" && typeof b === "number")
return a - b; return 0; }`

`localeCompare` is modelled as character-code comparison (they agree on the
ASCII data of this development), and `Array.prototype.sort` as a stable
sort (its ECMA-262 behaviour whenever the comparator is consistent). -/

/-- Sign of `a.localeCompare(b)` / `a - b`, and `0` on mixed types. -/
def cmpJS : JSVal → JSVal → Int
  | .str a, .str b => if a.data < b.data then -1 else if b.data < a.data then 1 else 0
  | .num a, .num b => if a.ltb b then -1 else if b.ltb a then 1 else 0
  | _, _ => 0

/-- The comparator-induced "does not come after" relation used by the sort. -/
def cmpLe (a b : JSVal) : Prop := cmpJS a b ≤ 0

instance : DecidableRel cmpLe := fun a b => by unfold cmpLe; infer_instance

/-- Model of `values.sort(comparator)` as a stable sort. -/
def sortValues (l : List JSVal) : List JSVal :=
  List.insertionSort cmpLe l

/-- The two response shapes of `GET /filters/:field`. -/
inductive DistinctResp where
  | badField (allowed : List String)
  | ok (count : Nat) (values : List JSVal)
deriving DecidableEq

/-- The `GET /filters/:field` handler, given the distinct values returned
by the store (`Model.distinct(field)` — already deduplicated, in storage
order).  The error branch names the allowed filter fields. -/
def distinctHandler (filterBy : List String) (field : String)
    (storeValues : List JSVal) : DistinctResp :=
  if isFilterableTS filterBy field then
    .ok (sortValues storeValues).length (sortValues storeValues)
  else
    .badField filterBy


/-! ## Attachment coordinator (`fileUpload`)

`validateFiles`, `isFileAccepted`, `uploadFiles`, `deleteBlobs`,
`extractBlobUrls`.  Uploaded files are modelled as an association list
`fieldName → file` (multer is configured with `maxCount: 1` per field).
The blob store is abstracted by an oracle `blobUrl : String → String`
giving the URL returned by `put` for each field's upload (the concrete
path contains a `Date.now()` component, outside the modelled state).
Error messages are modelled as structured values carrying the same data as
the formatted strings of the source. -/

/-- An uploaded file as seen by the validator. -/
structure MulterFile where
  originalname : String
  mimetype : String
  size : Nat
deriving DecidableEq

/-- One configured file field (from `extractFileFields`). -/
structure FileFieldConfig where
  fieldName : String
  required : Bool := false
  maxSize : Option JSNum := none
  accept : Option String := none
deriving DecidableEq

/-- The `req.files` map: uploaded files keyed by field name. -/
abbrev UploadedFiles := List (String × MulterFile)

/-- Model of `files?.[fieldName]?.[0]`. -/
def lookupFile : UploadedFiles → String → Option MulterFile
  | [], _ => none
  | (g, m) :: rest, f => if g = f then some m else lookupFile rest f

/-- The validator's error messages, as structured values:
`File field "<f>" is required`,
`File "<f>" exceeds max size of <m>MB (got <x>MB)`,
`File "<f>" type "<mime>" not allowed. Accepted: <accept>`. -/
inductive FileError where
  | requiredMissing (field : String)
  | sizeExceeded (field : String) (maxMB : JSNum) (sizeBytes : Nat)
  | typeNotAccepted (field : String) (mimetype accept : String)
deriving DecidableEq

/-- Model of `path.extname` on a bare file name (no directory separators): the
suffix from the last `.`, empty when there is no `.` or the name starts
with its only `.`. -/
def extnameChars (l : List Char) : List Char :=
  let rev := l.reverse
  let pre := rev.takeWhile (fun c => c != '.')
  if pre.length == rev.length then []
  else if pre.length + 1 == rev.length then []
  else '.' :: pre.reverse

/-- Does the rule end in `/*`? -/
def endsWithSlashStar (l : List Char) : Bool :=
  ['*', '/'].isPrefixOf l.reverse

/-- Model of `rule.replace("/*", "/")` (first occurrence). -/
def replaceFirstSlashStar : List Char → List Char
  | '/' :: '*' :: rest => '/' :: rest
  | c :: rest => c :: replaceFirstSlashStar rest
  | [] => []

/-- Model of `isFileAccepted(file, accept)`: the `accept` string is split on
commas into trimmed lower-case rules; a rule starting with `.` matches the
file-name extension, a rule ending in `/*` matches the media-type prefix,
any other rule matches the full media type; the file is accepted when any
rule matches. -/
def isFileAccepted (file : MulterFile) (accept : String) : Bool :=
  let rules := (splitComma accept.data).map (fun r => lowerChars (trimChars r))
  let mime := lowerChars file.mimetype.data
  let ext := lowerChars (extnameChars file.originalname.data)
  rules.any (fun rule =>
    match rule with
    | '.' :: _ => ext == rule
    | _ =>
      if endsWithSlashStar rule then (replaceFirstSlashStar rule).isPrefixOf mime
      else mime == rule)

/-- The errors contributed by one configured file field: a missing file is
an error only when the field is required and the request is a create; an
uploaded file is checked against `maxSize` (skipped when unset or `0`,
which is falsy in the source's `ff.maxSize &&` guard) and against `accept`
(skipped when unset or the falsy `""`), and can contribute both errors. -/
def fieldFileErrors (files : UploadedFiles) (isCreate : Bool)
    (ff : FileFieldConfig) : List FileError :=
  match lookupFile files ff.fieldName with
  | none =>
    if ff.required && isCreate then [.requiredMissing ff.fieldName] else []
  | some up =>
    (match ff.maxSize with
     | none => []
     | some m =>
       if m.eqb (JSNum.int 0) then []
       else if (JSNum.mk (m.num * (1024 * 1024)) m.den).ltb (JSNum.int up.size) then
         [.sizeExceeded ff.fieldName m up.size]
       else []) ++
    (match ff.accept with
     | none => []
     | some a =>
       if a == "" then []
       else if isFileAccepted up a then []
       else [.typeNotAccepted ff.fieldName up.mimetype a])

/-- Model of `validateFiles(files, fileFields, isCreate)`: every configured
field is
checked and all errors are collected, in field order. -/
def validateFiles (files : UploadedFiles) (fileFields : List FileFieldConfig)
    (isCreate : Bool) : List FileError :=
  match fileFields with
  | [] => []
  | ff :: rest => fieldFileErrors files isCreate ff ++ validateFiles files rest isCreate

/-- Model of `uploadFiles`: for each configured field with an uploaded file,
upload it and record `fieldName → url`; fields without an upload are omitted.
The URL returned by the blob store is given by the oracle `blobUrl`. -/
def uploadResults (files : UploadedFiles) (fileFields : List FileFieldConfig)
    (blobUrl : String → String) : List (String × String) :=
  fileFields.filterMap (fun ff =>
    if (lookupFile files ff.fieldName).isSome then some (ff.fieldName, blobUrl ff.fieldName)
    else none)

/-- Model of `val.startsWith("http")`. -/
def startsWithHttp (s : String) : Bool :=
  "http".data.isPrefixOf s.data

/-- Model of `extractBlobUrls(doc, fileFields)`: the string values of the file
fields that start with `http`. -/
def extractBlobUrls (doc : Document) (fileFields : List FileFieldConfig) : List String :=
  fileFields.filterMap (fun ff =>
    match docGet doc ff.fieldName with
    | some (.str v) => if startsWithHttp v then some v else none
    | _ => none)

/-! ## Mutation handlers as event traces

Each handler is embedded as the ordered list of its externally visible
actions: storage-engine calls, blob-store calls (`uploadFiles` as one
`blobPut` per uploaded field, `deleteBlobs` as one `blobDelete` carrying
the URL list), and the final response.  The outcome of each storage call
is an input (an oracle): `createResult` for `Model.create`, `oldDoc` for
the pre-update `findById`, `updOutcome` for `findByIdAndUpdate`. -/

/-- Distinguishable storage-engine failures (`MongooseError`). -/
inductive StoreErr where
  | validation (details : List (String × String))
  | dupKey (field : String)
  | other
deriving DecidableEq

/-- The response shapes of the mutation handlers. -/
inductive HandlerResp where
  | emptyBody
  | fileValidation (errs : List FileError)
  | created
  | okDoc (doc : Document)
  | notFound
  | validationFailed (details : List (String × String))
  | conflict (field : String)
  | passToNext
deriving DecidableEq

/-- The uniform error mapping of the handlers' catch blocks:
`ValidationError` → 400 with per-field details, duplicate key (11000) →
409 naming the field, anything else → `next(err)`. -/
def mapStoreErr : StoreErr → HandlerResp
  | .validation d => .validationFailed d
  | .dupKey f => .conflict f
  | .other => .passToNext

/-- One externally visible action of a handler. -/
inductive Ev where
  | dbCreate
  | dbFindById (id : String)
  | dbUpdate (id : String)
  | blobPut (field url : String)
  | blobDelete (urls : List String)
  | respond (r : HandlerResp)
deriving DecidableEq

/-- The POST (create) handler.  `hasFiles` is
`fileFields.length > 0 && !!blobToken`; `bodyKeys` are the keys of
`req.body`.  After a successful upload, a failing `Model.create` triggers
`deleteBlobs(Object.values(uploadedUrls))` before the error is mapped. -/
def postHandler (hasFiles : Bool) (fileFields : List FileFieldConfig)
    (bodyKeys : List String) (files : UploadedFiles) (blobUrl : String → String)
    (createResult : Option StoreErr) : List Ev :=
  let hasBody := !bodyKeys.isEmpty
  let hasUploadedFiles := !files.isEmpty
  if !hasBody && !hasUploadedFiles then [.respond .emptyBody]
  else if hasFiles then
    let errs := validateFiles files fileFields true
    if !errs.isEmpty then [.respond (.fileValidation errs)]
    else
      let urls := uploadResults files fileFields blobUrl
      let puts := urls.map (fun p => Ev.blobPut p.1 p.2)
      match createResult with
      | none => puts ++ [.dbCreate, .respond .created]
      | some e =>
        puts ++ [.dbCreate] ++
        (if urls.isEmpty then [] else [.blobDelete (urls.map (fun p => p.2))]) ++
        [.respond (mapStoreErr e)]
  else
    match createResult with
    | none => [.dbCreate, .respond .created]
    | some e => [.dbCreate, .respond (mapStoreErr e)]

/-- Outcomes of `findByIdAndUpdate`. -/
inductive UpdOutcome where
  | doc (d : Document)
  | missing
  | err (e : StoreErr)
deriving DecidableEq

/-- The PUT (replace) handler: empty-body guard, file validation with
`isCreate = false`, capture of the old document's blob URLs, upload, full
overwrite; not-found rolls back the new uploads, success cleans up the old
URLs before responding. -/
def putHandler (hasFiles : Bool) (fileFields : List FileFieldConfig)
    (id : String) (bodyKeys : List String) (files : UploadedFiles)
    (blobUrl : String → String) (oldDoc : Option Document)
    (updOutcome : UpdOutcome) : List Ev :=
  let hasBody := !bodyKeys.isEmpty
  let hasUploadedFiles := !files.isEmpty
  if !hasBody && !hasUploadedFiles then [.respond .emptyBody]
  else if hasFiles && !(validateFiles files fileFields false).isEmpty then
    [.respond (.fileValidation (validateFiles files fileFields false))]
  else
    let urls := if hasFiles then uploadResults files fileFields blobUrl else []
    let oldUrls :=
      if hasFiles then
        match oldDoc with
        | some d => extractBlobUrls d fileFields
        | none => []
      else []
    let pre : List Ev :=
      if hasFiles then
        [.dbFindById id] ++ urls.map (fun p => Ev.blobPut p.1 p.2)
      else []
    pre ++ [.dbUpdate id] ++
    (match updOutcome with
     | .doc d =>
       (if oldUrls.isEmpty then [] else [.blobDelete oldUrls]) ++ [.respond (.okDoc d)]
     | .missing =>
       (if urls.isEmpty then [] else [.blobDelete (urls.map (fun p => p.2))]) ++
       [.respond .notFound]
     | .err e => [.respond (mapStoreErr e)])

/-- The PATCH (partial update) handler: like PUT, but the file section runs
only when files were actually uploaded, and only the old URLs of the
re-uploaded fields are scheduled for cleanup. -/
def patchHandler (hasFiles : Bool) (fileFields : List FileFieldConfig)
    (id : String) (bodyKeys : List String) (files : UploadedFiles)
    (blobUrl : String → String) (oldDoc : Option Document)
    (updOutcome : UpdOutcome) : List Ev :=
  let hasBody := !bodyKeys.isEmpty
  let hasUploadedFiles := !files.isEmpty
  if !hasBody && !hasUploadedFiles then [.respond .emptyBody]
  else
    let act := hasFiles && hasUploadedFiles
    if act && !(validateFiles files fileFields false).isEmpty then
      [.respond (.fileValidation (validateFiles files fileFields false))]
    else
      let urls := if act then uploadResults files fileFields blobUrl else []
      let oldUrls :=
        if act then
          match oldDoc with
          | some d =>
            fileFields.filterMap (fun ff =>
              if (lookupFile files ff.fieldName).isSome then
                match docGet d ff.fieldName with
                | some (.str v) => if startsWithHttp v then some v else none
                | _ => none
              else none)
          | none => []
        else []
      let pre : List Ev :=
        if act then
          [.dbFindById id] ++ urls.map (fun p => Ev.blobPut p.1 p.2)
        else []
      pre ++ [.dbUpdate id] ++
      (match updOutcome with
       | .doc d =>
         (if oldUrls.isEmpty then [] else [.blobDelete oldUrls]) ++ [.respond (.okDoc d)]
       | .missing =>
         (if urls.isEmpty then [] else [.blobDelete (urls.map (fun p => p.2))]) ++
         [.respond .notFound]
       | .err e => [.respond (mapStoreErr e)])

/-! # Verified properties -/

/-! ## C2 — the two `isFilterable` variants -/

/-- C2: the two implementations of the filterability check are not
equivalent: with an empty `filterableFields` set, the `createRouter.js`
variant allows every field while the TypeScript variant allows none; for a
non-empty set the two agree on every field. -/
theorem c2_isFilterable_variants :
    (∀ f : String, isFilterableJS [] f = true) ∧
    (∀ f : String, isFilterableTS [] f = false) ∧
    (∀ (fb : List String) (f : String), fb ≠ [] →
      isFilterableJS fb f = isFilterableTS fb f) := by
  refine ⟨fun f => rfl, fun f => rfl, fun fb f h => ?_⟩
  cases fb with
  | nil => exact absurd rfl h
  | cons a t => rfl

/-- Witness for C2 at concrete inputs. -/
theorem c2_isFilterable_variants_witness :
    isFilterableJS [] "name" = true ∧
    isFilterableTS [] "name" = false ∧
    isFilterableJS ["grade"] "age" = isFilterableTS ["grade"] "age" :=
  ⟨c2_isFilterable_variants.1 "name", c2_isFilterable_variants.2.1 "name",
   c2_isFilterable_variants.2.2 ["grade"] "age" (by decide)⟩

/-! ## C3 — pagination clamping -/

/-- C3: whenever the raw `page` and `limit` parameters parse as integers
`p` and `l`, the effective page is `max 1 p`, the effective limit is
`min 100 (max 1 l)`, and the skip offset passed to the store is
`(max 1 p - 1) * min 100 (max 1 l)`. -/
theorem c3_pagination_clamps (ps ls : String) (p l : Int)
    (hp : jsParseInt ps = some p) (hl : jsParseInt ls = some l) :
    effectivePage (some ps) = some (max 1 p) ∧
    effectiveLimit (some ls) = some (min 100 (max 1 l)) ∧
    skipOffset (some ps) (some ls) = some ((max 1 p - 1) * min 100 (max 1 l)) := by
  refine ⟨?_, ?_, ?_⟩
  · simp [effectivePage, hp]
  · simp [effectiveLimit, hl]
  · simp [skipOffset, effectivePage, effectiveLimit, hp, hl]

/-- Witness for C3 at `page = "2"`, `limit = "5"`. -/
theorem c3_pagination_clamps_witness :
    effectivePage (some "2") = some (max 1 2) ∧
    effectiveLimit (some "5") = some (min 100 (max 1 5)) ∧
    skipOffset (some "2") (some "5") = some ((max 1 2 - 1) * min 100 (max 1 5)) :=
  c3_pagination_clamps "2" "5" 2 5 (by decide) (by decide)

/-! ## C5 — pagination envelope -/

/-- The embedded `Math.ceil(a / b)` agrees with the mathematical ceiling of the exact
quotient for a positive divisor. -/
theorem mathCeilDiv_eq_ceil (a b : Int) (hb : 0 < b) :
    mathCeilDiv a b = ⌈(a : ℚ) / (b : ℚ)⌉ := by
  have hbq : (0 : ℚ) < (b : ℚ) := by exact_mod_cast hb
  have h := Int.ediv_add_emod (-a) b
  have hr0 : 0 ≤ (-a) % b := Int.emod_nonneg _ hb.ne'
  have hrb : (-a) % b < b := Int.emod_lt_of_pos _ hb
  set q : Int := (-a) / b with hq
  set r : Int := (-a) % b with hr
  have ha : (a : ℚ) = -((b : ℚ) * (q : ℚ) + (r : ℚ)) := by
    have : b * q + r = -a := h
    have := congrArg (fun z : Int => (z : ℚ)) this
    push_cast at this
    linarith
  have hr0q : (0 : ℚ) ≤ (r : ℚ) := by exact_mod_cast hr0
  have hrbq : (r : ℚ) < (b : ℚ) := by exact_mod_cast hrb
  symm
  rw [Int.ceil_eq_iff]
  unfold mathCeilDiv
  rw [← hq]
  constructor
  · rw [lt_div_iff₀ hbq]
    push_cast
    nlinarith
  · rw [div_le_iff₀ hbq]
    push_cast
    nlinarith

/-- C5: in the pagination envelope of a successful list response,
`totalPages` is the ceiling of `total / limit` (exact arithmetic),
`hasNext` holds exactly when the effective page is below `totalPages`, and
`hasPrev` exactly when it exceeds `1`; the concrete scenario
`total = 12, page = 2, limit = 5` yields
`{total: 12, page: 2, limit: 5, totalPages: 3, hasNext: true, hasPrev: true}`. -/
theorem c5_pagination_envelope (total pageNum limitNum : Int)
    (hlim : 0 < limitNum) :
    (buildPagination total pageNum limitNum).totalPages =
      ⌈(total : ℚ) / (limitNum : ℚ)⌉ ∧
    ((buildPagination total pageNum limitNum).hasNext = true ↔
      pageNum < (buildPagination total pageNum limitNum).totalPages) ∧
    ((buildPagination total pageNum limitNum).hasPrev = true ↔ 1 < pageNum) ∧
    buildPagination 12 2 5 = ⟨12, 2, 5, 3, true, true⟩ := by
  refine ⟨mathCeilDiv_eq_ceil total limitNum hlim, ?_, ?_, by decide⟩
  · simp [buildPagination]
  · simp [buildPagination]

/-- Witness for C5 at `total = 12, page = 2, limit = 5`. -/
theorem c5_pagination_envelope_witness :
    (buildPagination 12 2 5).totalPages = ⌈(12 : ℚ) / (5 : ℚ)⌉ ∧
    ((buildPagination 12 2 5).hasNext = true ↔ 2 < (buildPagination 12 2 5).totalPages) ∧
    ((buildPagination 12 2 5).hasPrev = true ↔ 1 < (2 : Int)) ∧
    buildPagination 12 2 5 = ⟨12, 2, 5, 3, true, true⟩ := by
  have h := c5_pagination_envelope 12 2 5 (by decide)
  push_cast at h ⊢
  exact h

/-! ## C1 — non-filterable keys are dropped -/

/-- Setting a clause for one field leaves every other field's lookup
unchanged. -/
theorem lookupField_setClause_ne (q : Query) (g f : String) (c : Clause)
    (h : g ≠ f) : lookupField (setClause q g c) f = lookupField q f := by
  induction q with
  | nil => simp [setClause, lookupField, h]
  | cons p rest ih =>
    obtain ⟨k, d⟩ := p
    by_cases hk : k = g
    · subst hk
      simp [setClause, lookupField, h]
    · simp [setClause, lookupField, hk, ih]

/-- Writing an operator entry on one field leaves every other field's
lookup unchanged. -/
theorem lookupField_writeOp_ne (q : Query) (g f : String) (op : FilterOp)
    (v : JSVal) (h : g ≠ f) :
    lookupField (writeOp q g op v) f = lookupField q f := by
  unfold writeOp
  cases hc : lookupField q g with
  | none => exact lookupField_setClause_ne q g f _ h
  | some c =>
    cases c with
    | scalar w =>
      by_cases ht : (Clause.scalar w).truthy
      · simp [ht]
      · simp [ht, lookupField_setClause_ne q g f _ h]
    | regex pat o => exact lookupField_setClause_ne q g f _ h
    | ops o => exact lookupField_setClause_ne q g f _ h

/-- One step of the filter loop never creates or changes a clause for a
field the filterability check rejects. -/
theorem lookupField_compileStep (filterable : String → Bool) (q : Query)
    (k v : String) (f : String) (hf : filterable f = false) :
    lookupField (compileStep filterable q k v) f = lookupField q f := by
  unfold compileStep
  by_cases hu : headIs '_' k
  · simp [hu]
  · simp only [hu]
    cases hop : opSuffix k with
    | some p =>
      obtain ⟨g, op⟩ := p
      by_cases hg : filterable g
      · have hne : g ≠ f := fun hEq => by rw [hEq, hf] at hg; exact Bool.false_ne_true hg
        simp [hg, lookupField_writeOp_ne q g f op _ hne]
      · simp [Bool.of_not_eq_true hg]
    | none =>
      by_cases hk : filterable k
      · have hne : k ≠ f := fun hEq => by rw [hEq, hf] at hk; exact Bool.false_ne_true hk
        by_cases hre : headIs '/' v && lastIs '/' v
        · simp [hk, hre, lookupField_setClause_ne q k f _ hne]
        · simp [hk, hre, lookupField_setClause_ne q k f _ hne]
      · simp [Bool.of_not_eq_true hk]

/-- The whole filter loop preserves the (absent) lookup of a rejected
field, from any starting accumulator. -/
theorem lookupField_compileFilters_foldl (filterable : String → Bool)
    (params : List (String × String)) (f : String) (hf : filterable f = false) :
    ∀ q0 : Query,
      lookupField (params.foldl (fun q kv => compileStep filterable q kv.1 kv.2) q0) f =
        lookupField q0 f := by
  induction params with
  | nil => intro q0; rfl
  | cons kv rest ih =>
    intro q0
    simpa [List.foldl_cons] using
      (ih (compileStep filterable q0 kv.1 kv.2)).trans
        (lookupField_compileStep filterable q0 kv.1 kv.2 f hf)

/-- C1: for a resource whose `filterableFields` set is non-empty, the
compiled predicate of every list request contains no clause for a field
outside that set — in particular neither a bare equality key `<field>` nor
any operator key `<field>_<op>` contributes a clause, and no error is
raised (compilation is total).  This holds in both source variants. -/
theorem c1_nonfilterable_keys_dropped (filterBy : List String)
    (params : List (String × String)) (f : String)
    (hne : filterBy ≠ []) (hf : f ∉ filterBy) :
    lookupField (compileQuery filterBy params) f = none ∧
    lookupField (compileQueryJS filterBy params) f = none := by
  have hts : isFilterableTS filterBy f = false := by
    simp [isFilterableTS, hne, hf]
  have hjs : isFilterableJS filterBy f = false := by
    simp [isFilterableJS, hne, hf]
  exact ⟨lookupField_compileFilters_foldl _ params f hts [],
         lookupField_compileFilters_foldl _ params f hjs []⟩

/-- Witness for C1: `filterBy = ["grade"]`, a bare key `price` and an
operator key `price_gte` are both dropped. -/
theorem c1_nonfilterable_keys_dropped_witness :
    lookupField (compileQuery ["grade"] [("price", "5"), ("price_gte", "10")]) "price" = none ∧
    lookupField (compileQueryJS ["grade"] [("price", "5"), ("price_gte", "10")]) "price" = none :=
  c1_nonfilterable_keys_dropped ["grade"] [("price", "5"), ("price_gte", "10")] "price"
    (by decide) (by decide)

/-! ## C10 / C4 — operator-key decomposition helpers -/

/-- Rebuilding a string from its data is the identity. -/
theorem stringMk_data (f : String) : String.mk f.data = f := rfl

/-- A non-empty string has non-empty character data. -/
theorem data_ne_nil (f : String) (h : f ≠ "") : f.data ≠ [] := by
  intro hd
  apply h
  cases f with
  | mk l => cases hd; rfl

/-- The startsWith check looks only at the first character, so appending a suffix
to a non-empty string does not change it. -/
theorem headIs_append (c : Char) (f g : String) (hf : f.data ≠ []) :
    headIs c (f ++ g) = headIs c f := by
  unfold headIs
  rw [String.data_append]
  cases hd : f.data with
  | nil => exact absurd hd hf
  | cons a t => rfl

/-- Reversed data of `f ++ "_gte"`. -/
theorem data_reverse_append_gte (f : String) :
    (f ++ "_gte").data.reverse = 'e' :: 't' :: 'g' :: '_' :: f.data.reverse := by
  rw [String.data_append, List.reverse_append]; rfl

/-- Reversed data of `f ++ "_lte"`. -/
theorem data_reverse_append_lte (f : String) :
    (f ++ "_lte").data.reverse = 'e' :: 't' :: 'l' :: '_' :: f.data.reverse := by
  rw [String.data_append, List.reverse_append]; rfl

/-- The reverse of a non-empty list is not `isEmpty`. -/
theorem reverse_isEmpty_false (l : List Char) (h : l ≠ []) :
    l.reverse.isEmpty = false := by
  cases hl : l.reverse with
  | nil => exact absurd (List.reverse_eq_nil_iff.mp hl) h
  | cons a t => rfl

/-- The regex `^(.+)_(gt|gte|lt|lte|ne)$` decomposes `f ++ "_gte"` into
field `f` and operator `gte` for every non-empty `f`. -/
theorem opSuffix_append_gte (f : String) (hf : f ≠ "") :
    opSuffix (f ++ "_gte") = some (f, .gte) := by
  unfold opSuffix
  rw [data_reverse_append_gte]
  show (if (f.data.reverse).isEmpty then none
        else some (f.data.reverse, FilterOp.gte)).map
      (fun p => (String.mk p.1.reverse, p.2)) = some (f, .gte)
  rw [reverse_isEmpty_false f.data (data_ne_nil f hf)]
  simp [List.reverse_reverse, stringMk_data]

/-- The regex decomposes `f ++ "_lte"` into field `f` and operator `lte`. -/
theorem opSuffix_append_lte (f : String) (hf : f ≠ "") :
    opSuffix (f ++ "_lte") = some (f, .lte) := by
  unfold opSuffix
  rw [data_reverse_append_lte]
  show (if (f.data.reverse).isEmpty then none
        else some (f.data.reverse, FilterOp.lte)).map
      (fun p => (String.mk p.1.reverse, p.2)) = some (f, .lte)
  rw [reverse_isEmpty_false f.data (data_ne_nil f hf)]
  simp [List.reverse_reverse, stringMk_data]

/-- A field of a non-empty `filterBy` list passes the TypeScript
filterability check. -/
theorem isFilterableTS_of_mem (filterBy : List String) (f : String)
    (hmem : f ∈ filterBy) : isFilterableTS filterBy f = true := by
  have hne : filterBy ≠ [] := by
    intro h
    rw [h] at hmem
    exact absurd hmem (List.not_mem_nil f)
  simp [isFilterableTS, hne, hmem]

/-- C10: on a filterable field, a filter clause whose raw value is the
empty string is treated as numeric by the `isNaN` coercion and compiles to
a clause constraining the field to the number `0` — both in the bare
equality form and in the operator form — not to the empty string. -/
theorem c10_empty_value_coerces_to_zero (filterBy : List String) (f : String)
    (hmem : f ∈ filterBy) (hus : headIs '_' f = false) (hf : f ≠ "")
    (hop : opSuffix f = none) :
    compileQuery filterBy [(f, "")] = [(f, .scalar (.num (JSNum.int 0)))] ∧
    compileQuery filterBy [(f ++ "_gte", "")] =
      [(f, .ops { gte := some (.num (JSNum.int 0)) })] := by
  have hfil := isFilterableTS_of_mem filterBy f hmem
  constructor
  · show compileStep (isFilterableTS filterBy) [] f "" = _
    simp [compileStep, hus, hop, hfil, setClause,
      show headIs '/' "" = false from rfl,
      show coerceValue "" = JSVal.num (JSNum.int 0) from rfl]
  · have h1 : headIs '_' (f ++ "_gte") = false :=
      (headIs_append '_' f "_gte" (data_ne_nil f hf)).trans hus
    show compileStep (isFilterableTS filterBy) [] (f ++ "_gte") "" = _
    simp [compileStep, h1, opSuffix_append_gte f hf, hfil, writeOp, lookupField,
      setClause, OpNode.set,
      show coerceValue "" = JSVal.num (JSNum.int 0) from rfl]

/-- Witness for C10 at `filterBy = ["price"]`, `f = "price"`. -/
theorem c10_empty_value_coerces_to_zero_witness :
    compileQuery ["price"] [("price", "")] =
      [("price", .scalar (.num (JSNum.int 0)))] ∧
    compileQuery ["price"] [("price" ++ "_gte", "")] =
      [("price", .ops { gte := some (.num (JSNum.int 0)) })] :=
  c10_empty_value_coerces_to_zero ["price"] "price"
    (by decide) (by decide) (by decide) (by decide)

/-! ## C4 — range operators accumulate into one compound clause -/

/-- C4: for a filterable field, `<field>_gte` and `<field>_lte` keys
accumulate into a single compound predicate node on that field carrying
both operator entries; in particular `?price_gte=10&price_lte=50` compiles
to one node requiring `price ∈ [10, 50]`, which excludes a document with
`price = 9.99` and includes one with `price = 50`. -/
theorem c4_range_operators_merge (filterBy : List String) (f v1 v2 : String)
    (hmem : f ∈ filterBy) (hus : headIs '_' f = false) (hf : f ≠ "") :
    compileQuery filterBy [(f ++ "_gte", v1), (f ++ "_lte", v2)] =
      [(f, .ops { gte := some (coerceValue v1), lte := some (coerceValue v2) })] ∧
    matchesQuery (compileQuery ["price"] [("price_gte", "10"), ("price_lte", "50")])
      [("price", .num ⟨999, 100⟩)] = false ∧
    matchesQuery (compileQuery ["price"] [("price_gte", "10"), ("price_lte", "50")])
      [("price", .num ⟨50, 1⟩)] = true := by
  have hfil := isFilterableTS_of_mem filterBy f hmem
  have h1g : headIs '_' (f ++ "_gte") = false :=
    (headIs_append '_' f "_gte" (data_ne_nil f hf)).trans hus
  have h1l : headIs '_' (f ++ "_lte") = false :=
    (headIs_append '_' f "_lte" (data_ne_nil f hf)).trans hus
  refine ⟨?_, by decide, by decide⟩
  show compileStep (isFilterableTS filterBy)
      (compileStep (isFilterableTS filterBy) [] (f ++ "_gte") v1) (f ++ "_lte") v2 = _
  have step1 : compileStep (isFilterableTS filterBy) [] (f ++ "_gte") v1 =
      [(f, .ops { gte := some (coerceValue v1) })] := by
    simp [compileStep, h1g, opSuffix_append_gte f hf, hfil, writeOp, lookupField,
      setClause, OpNode.set]
  rw [step1]
  simp [compileStep, h1l, opSuffix_append_lte f hf, hfil, writeOp, lookupField,
    setClause, OpNode.set]

/-- Witness for C4 at the concrete price-range scenario. -/
theorem c4_range_operators_merge_witness :
    compileQuery ["price"] [("price" ++ "_gte", "10"), ("price" ++ "_lte", "50")] =
      [("price", .ops { gte := some (coerceValue "10"), lte := some (coerceValue "50") })] ∧
    matchesQuery (compileQuery ["price"] [("price_gte", "10"), ("price_lte", "50")])
      [("price", .num ⟨999, 100⟩)] = false ∧
    matchesQuery (compileQuery ["price"] [("price_gte", "10"), ("price_lte", "50")])
      [("price", .num ⟨50, 1⟩)] = true :=
  c4_range_operators_merge ["price"] "price" "10" "50"
    (by decide) (by decide) (by decide)

/-! ## C7 — attachment validation collects every violation -/

/-- C7: attachment validation examines every configured file field in one
pass and concatenates their errors (no short-circuit across fields); a
missing required file is an error only on create; an uploaded file that
violates both the size bound and the accept rule contributes both distinct
errors; and the three accept-rule forms match extension, media-type prefix
and exact media type respectively. -/
theorem c7_validateFiles_collects_all :
    (∀ (files : UploadedFiles) (ffs₁ ffs₂ : List FileFieldConfig) (c : Bool),
      validateFiles files (ffs₁ ++ ffs₂) c =
        validateFiles files ffs₁ c ++ validateFiles files ffs₂ c) ∧
    (∀ (files : UploadedFiles) (ff : FileFieldConfig),
      ff.required = true → lookupFile files ff.fieldName = none →
        validateFiles files [ff] true = [.requiredMissing ff.fieldName] ∧
        validateFiles files [ff] false = []) ∧
    (∀ (files : UploadedFiles) (ff : FileFieldConfig) (up : MulterFile)
        (m : JSNum) (a : String) (c : Bool),
      lookupFile files ff.fieldName = some up →
      ff.maxSize = some m → m.eqb (JSNum.int 0) = false →
      (JSNum.mk (m.num * (1024 * 1024)) m.den).ltb (JSNum.int up.size) = true →
      ff.accept = some a → (a == "") = false → isFileAccepted up a = false →
        validateFiles files [ff] c =
          [.sizeExceeded ff.fieldName m up.size,
           .typeNotAccepted ff.fieldName up.mimetype a]) ∧
    (isFileAccepted ⟨"cv.pdf", "application/pdf", 5⟩ ".pdf" = true ∧
     isFileAccepted ⟨"x.png", "image/png", 1⟩ "image/*" = true ∧
     isFileAccepted ⟨"x.png", "image/png", 1⟩ "image/png" = true ∧
     isFileAccepted ⟨"x.gif", "image/gif", 1⟩ ".pdf,application/pdf,image/jpeg" = false) := by
  refine ⟨?_, ?_, ?_, by decide, by decide, by decide, by decide⟩
  · intro files ffs₁ ffs₂ c
    induction ffs₁ with
    | nil => simp [validateFiles]
    | cons ff t ih => simp [validateFiles, ih]
  · intro files ff hreq hmiss
    constructor
    · simp [validateFiles, fieldFileErrors, hreq, hmiss]
    · simp [validateFiles, fieldFileErrors, hmiss]
  · intro files ff up m a c hlook hms hz hsz hacc hne hnacc
    norm_num at hsz
    simp [validateFiles, fieldFileErrors, hlook, hms, hz, hsz, hacc, hne, hnacc]

/-- Witness for C7: a required field with no upload on create, and a field
whose upload breaks both the 5 MB bound and the accept rule. -/
theorem c7_validateFiles_collects_all_witness :
    validateFiles [] [⟨"idCard", true, some ⟨5, 1⟩, some ".pdf"⟩] true =
      [.requiredMissing "idCard"] ∧
    validateFiles [] [⟨"idCard", true, some ⟨5, 1⟩, some ".pdf"⟩] false = [] ∧
    validateFiles [("idCard", ⟨"x.gif", "image/gif", 6291456⟩)]
        [⟨"idCard", true, some ⟨5, 1⟩, some ".pdf"⟩] true =
      [.sizeExceeded "idCard" ⟨5, 1⟩ 6291456,
       .typeNotAccepted "idCard" "image/gif" ".pdf"] :=
  ⟨(c7_validateFiles_collects_all.2.1 [] ⟨"idCard", true, some ⟨5, 1⟩, some ".pdf"⟩
      (by decide) (by decide)).1,
   (c7_validateFiles_collects_all.2.1 [] ⟨"idCard", true, some ⟨5, 1⟩, some ".pdf"⟩
      (by decide) (by decide)).2,
   c7_validateFiles_collects_all.2.2.1 [("idCard", ⟨"x.gif", "image/gif", 6291456⟩)]
      ⟨"idCard", true, some ⟨5, 1⟩, some ".pdf"⟩ ⟨"x.gif", "image/gif", 6291456⟩
      ⟨5, 1⟩ ".pdf" true (by decide) (by decide) (by decide) (by decide)
      (by decide) (by decide) (by decide)⟩

/-! ## C6 — blob rollback on failed create -/

/-- With no uploaded files, `uploadFiles` records no URLs. -/
theorem uploadResults_nil (fileFields : List FileFieldConfig)
    (blobUrl : String → String) : uploadResults [] fileFields blobUrl = [] := by
  simp [uploadResults, lookupFile]

/-- C6: on a create request where uploads succeeded (a non-empty URL map)
and document persistence then fails, the handler calls the blob store's
delete with exactly the URLs returned by the uploads, after the store call
and before the error response is surfaced. -/
theorem c6_create_rollback (fileFields : List FileFieldConfig)
    (bodyKeys : List String) (files : UploadedFiles)
    (blobUrl : String → String) (e : StoreErr)
    (hval : validateFiles files fileFields true = [])
    (hurls : uploadResults files fileFields blobUrl ≠ []) :
    postHandler true fileFields bodyKeys files blobUrl (some e) =
      (uploadResults files fileFields blobUrl).map (fun p => Ev.blobPut p.1 p.2) ++
      [.dbCreate,
       .blobDelete ((uploadResults files fileFields blobUrl).map (fun p => p.2)),
       .respond (mapStoreErr e)] := by
  have hfiles : files.isEmpty = false := by
    cases hfe : files with
    | nil => exact absurd (uploadResults_nil fileFields blobUrl) (hfe ▸ hurls)
    | cons a t => rfl
  have hurlsEmpty : (uploadResults files fileFields blobUrl).isEmpty = false := by
    cases hu : uploadResults files fileFields blobUrl with
    | nil => exact absurd hu hurls
    | cons a t => rfl
  simp [postHandler, hfiles, hval, hurlsEmpty]

/-- Witness for C6: one configured file field, one uploaded file, a
duplicate-key failure from the store. -/
theorem c6_create_rollback_witness :
    postHandler true [⟨"idCard", false, none, none⟩] ["name"]
        [("idCard", ⟨"cv.pdf", "application/pdf", 5⟩)]
        (fun _ => "https://blob/idCard") (some (.dupKey "email")) =
      (uploadResults [("idCard", ⟨"cv.pdf", "application/pdf", 5⟩)]
          [⟨"idCard", false, none, none⟩] (fun _ => "https://blob/idCard")).map
        (fun p => Ev.blobPut p.1 p.2) ++
      [.dbCreate,
       .blobDelete ((uploadResults [("idCard", ⟨"cv.pdf", "application/pdf", 5⟩)]
          [⟨"idCard", false, none, none⟩] (fun _ => "https://blob/idCard")).map
            (fun p => p.2)),
       .respond (mapStoreErr (.dupKey "email"))] :=
  c6_create_rollback [⟨"idCard", false, none, none⟩] ["name"]
    [("idCard", ⟨"cv.pdf", "application/pdf", 5⟩)]
    (fun _ => "https://blob/idCard") (.dupKey "email") (by decide) (by decide)

/-! ## C8 — empty-body writes rejected before any external call -/

/-- C8: a create, replace or partial-update request with an empty body and
no uploaded files yields only the 400 "Request body cannot be empty"
response — the event trace contains no storage-engine call and no
blob-store call. -/
theorem c8_empty_body_rejected (hasFiles : Bool)
    (fileFields : List FileFieldConfig) (id : String)
    (blobUrl : String → String) (oldDoc : Option Document)
    (upd : UpdOutcome) (createResult : Option StoreErr) :
    postHandler hasFiles fileFields [] [] blobUrl createResult = [.respond .emptyBody] ∧
    putHandler hasFiles fileFields id [] [] blobUrl oldDoc upd = [.respond .emptyBody] ∧
    patchHandler hasFiles fileFields id [] [] blobUrl oldDoc upd = [.respond .emptyBody] :=
  ⟨rfl, rfl, rfl⟩

/-! ## C9 — distinct-values endpoint -/

/-- Relation: both values are strings, in lexicographic order. -/
def strLe (a b : JSVal) : Prop :=
  ∃ x y : String, a = .str x ∧ b = .str y ∧ x.data ≤ y.data

/-- Relation: both values are numbers, in numeric order. -/
def numLe (a b : JSVal) : Prop :=
  ∃ x y : JSNum, a = .num x ∧ b = .num y ∧ x.val ≤ y.val

/-- On two strings, the sort comparator orders by lexicographic `≤`. -/
theorem cmpLe_str_iff (x y : String) :
    cmpLe (.str x) (.str y) ↔ x.data ≤ y.data := by
  show (if x.data < y.data then (-1 : Int) else if y.data < x.data then 1 else 0) ≤ 0 ↔
    x.data ≤ y.data
  rcases lt_trichotomy x.data y.data with h | h | h
  · rw [if_pos h]
    exact iff_of_true (by norm_num) h.le
  · rw [if_neg (h ▸ lt_irrefl x.data), if_neg (h ▸ lt_irrefl x.data)]
    exact iff_of_true le_rfl h.le
  · rw [if_neg (asymm h), if_pos h]
    exact iff_of_false (by norm_num) (not_le.mpr h)

/-- On two numbers, the sort comparator orders by the cross-multiplied
numerator comparison. -/
theorem cmpLe_num_iff (x y : JSNum) :
    cmpLe (.num x) (.num y) ↔ x.num * y.den ≤ y.num * x.den := by
  show (if x.ltb y = true then (-1 : Int) else if y.ltb x = true then 1 else 0) ≤ 0 ↔
    x.num * y.den ≤ y.num * x.den
  simp only [JSNum.ltb, decide_eq_true_eq]
  rcases lt_trichotomy (x.num * (y.den : Int)) (y.num * (x.den : Int)) with h | h | h
  · rw [if_pos h]
    exact iff_of_true (by norm_num) h.le
  · rw [if_neg (h ▸ lt_irrefl _), if_neg (h ▸ lt_irrefl _)]
    exact iff_of_true le_rfl h.le
  · rw [if_neg (asymm h), if_pos h]
    exact iff_of_false (by norm_num) (not_le.mpr h)

/-- Inserting into a sorted list keeps it sorted, provided the comparator
relation is total and transitive on the elements involved. -/
theorem orderedInsert_pairwise_restricted (P : JSVal → Prop)
    (htot : ∀ a b, P a → P b → ¬ cmpLe a b → cmpLe b a)
    (htrans : ∀ a b c, P a → P b → P c → cmpLe a b → cmpLe b c → cmpLe a c)
    (a : JSVal) (l : List JSVal) (hPa : P a) (hPl : ∀ x ∈ l, P x)
    (hs : l.Pairwise cmpLe) :
    (List.orderedInsert cmpLe a l).Pairwise cmpLe := by
  induction l with
  | nil => simp [List.orderedInsert]
  | cons b t ih =>
    have hs' := List.pairwise_cons.mp hs
    rw [List.orderedInsert]
    by_cases hab : cmpLe a b
    · rw [if_pos hab]
      refine List.Pairwise.cons ?_ hs
      intro x hx
      rcases List.mem_cons.mp hx with hxb | hxt
      · exact hxb ▸ hab
      · exact htrans a b x hPa (hPl b (List.mem_cons_self b t)) (hPl x (List.mem_cons_of_mem b hxt))
          hab (hs'.1 x hxt)
    · rw [if_neg hab]
      refine List.Pairwise.cons ?_
        (ih (fun x hx => hPl x (List.mem_cons_of_mem b hx)) hs'.2)
      intro x hx
      rcases (List.mem_orderedInsert cmpLe).mp hx with hxa | hxt
      · exact hxa ▸ htot a b hPa (hPl b (List.mem_cons_self b t)) hab
      · exact hs'.1 x hxt

/-- Insertion sort produces a comparator-sorted list, provided the
comparator relation is total and transitive on the list's elements. -/
theorem insertionSort_pairwise_restricted (P : JSVal → Prop)
    (htot : ∀ a b, P a → P b → ¬ cmpLe a b → cmpLe b a)
    (htrans : ∀ a b c, P a → P b → P c → cmpLe a b → cmpLe b c → cmpLe a c)
    (l : List JSVal) (hPl : ∀ x ∈ l, P x) :
    (List.insertionSort cmpLe l).Pairwise cmpLe := by
  induction l with
  | nil => simp
  | cons a t ih =>
    rw [List.insertionSort]
    refine orderedInsert_pairwise_restricted P htot htrans a _
      (hPl a (List.mem_cons_self a t)) ?_
      (ih (fun x hx => hPl x (List.mem_cons_of_mem a hx)))
    intro x hx
    exact hPl x (List.mem_cons_of_mem a ((List.perm_insertionSort cmpLe t).subset hx))

/-- When the comparator returns `0` on every pair of the list (as it does
on values that are neither both strings nor both numbers), the stable sort
leaves the list unchanged. -/
theorem sortValues_all_ties (l : List JSVal)
    (h : ∀ a ∈ l, ∀ b ∈ l, cmpJS a b = 0) : sortValues l = l := by
  induction l with
  | nil => rfl
  | cons a t ih =>
    have ht : sortValues t = t :=
      ih (fun x hx y hy =>
        h x (List.mem_cons_of_mem a hx) y (List.mem_cons_of_mem a hy))
    show List.orderedInsert cmpLe a (List.insertionSort cmpLe t) = a :: t
    rw [show List.insertionSort cmpLe t = sortValues t from rfl, ht]
    cases t with
    | nil => rfl
    | cons b r =>
      rw [List.orderedInsert, if_pos]
      show cmpJS a b ≤ 0
      rw [h a (List.mem_cons_self a _) b (List.mem_cons_of_mem a (List.mem_cons_self b r))]

/-- On an all-string value list the sort is a lexicographically ordered
permutation of the input. -/
theorem sortValues_strings (l : List JSVal)
    (hl : ∀ v ∈ l, ∃ s, v = .str s) :
    (sortValues l).Pairwise strLe ∧ List.Perm (sortValues l) l := by
  have hperm : List.Perm (sortValues l) l := List.perm_insertionSort cmpLe l
  refine ⟨?_, hperm⟩
  have hpw : (List.insertionSort cmpLe l).Pairwise cmpLe := by
    refine insertionSort_pairwise_restricted (fun v => ∃ s, v = .str s) ?_ ?_ l hl
    · rintro a b ⟨x, rfl⟩ ⟨y, rfl⟩ hne
      rw [cmpLe_str_iff] at hne ⊢
      exact le_of_not_le hne
    · rintro a b c ⟨x, rfl⟩ ⟨y, rfl⟩ ⟨z, rfl⟩ h1 h2
      rw [cmpLe_str_iff] at h1 h2 ⊢
      exact le_trans h1 h2
  refine List.Pairwise.imp_of_mem ?_ hpw
  intro a b ha hb hab
  obtain ⟨x, rfl⟩ := hl a (hperm.subset ha)
  obtain ⟨y, rfl⟩ := hl b (hperm.subset hb)
  exact ⟨x, y, rfl, rfl, (cmpLe_str_iff x y).mp hab⟩

/-- On an all-number value list (positive denominators, as produced by the
parser) the sort is a numerically ordered permutation of the input. -/
theorem sortValues_numbers (l : List JSVal)
    (hl : ∀ v ∈ l, ∃ q, v = .num q ∧ 0 < q.den) :
    (sortValues l).Pairwise numLe ∧ List.Perm (sortValues l) l := by
  have hperm : List.Perm (sortValues l) l := List.perm_insertionSort cmpLe l
  refine ⟨?_, hperm⟩
  have hpw : (List.insertionSort cmpLe l).Pairwise cmpLe := by
    refine insertionSort_pairwise_restricted (fun v => ∃ q, v = .num q ∧ 0 < q.den) ?_ ?_ l hl
    · rintro a b ⟨x, rfl, _⟩ ⟨y, rfl, _⟩ hne
      rw [cmpLe_num_iff] at hne ⊢
      exact le_of_not_le hne
    · rintro a b c ⟨x, rfl, _⟩ ⟨y, rfl, hy⟩ ⟨z, rfl, _⟩ h1 h2
      rw [cmpLe_num_iff] at h1 h2 ⊢
      have hyd : (0 : Int) < y.den := by exact_mod_cast hy
      have hxd : (0 : Int) ≤ x.den := Int.ofNat_nonneg _
      have hzd : (0 : Int) ≤ z.den := Int.ofNat_nonneg _
      have h3 : x.num * z.den * y.den ≤ z.num * x.den * y.den := by nlinarith
      exact le_of_mul_le_mul_right h3 hyd
  refine List.Pairwise.imp_of_mem ?_ hpw
  intro a b ha hb hab
  obtain ⟨x, rfl, hx⟩ := hl a (hperm.subset ha)
  obtain ⟨y, rfl, hy⟩ := hl b (hperm.subset hb)
  refine ⟨x, y, rfl, rfl, ?_⟩
  have hcross := (cmpLe_num_iff x y).mp hab
  unfold JSNum.val
  rw [div_le_div_iff₀ (by exact_mod_cast hx) (by exact_mod_cast hy)]
  exact_mod_cast hcross

/-- C9 (amended): the distinct-values handler answers a non-filterable
field with the 400 error naming the allowed fields, and an allowed field
with the count and list of the store's distinct values run through the
comparator sort; that sort orders all-text value lists lexicographically
and all-number value lists numerically (each a permutation of the store's
values), and leaves a list unchanged when the comparator ties on every
pair (as on values of other types); but a mixed-type list is *not* in
general left in storage order — same-type pairs are still reordered. -/
theorem c9_distinct_endpoint :
    (∀ (filterBy : List String) (field : String) (vals : List JSVal),
      field ∉ filterBy →
        distinctHandler filterBy field vals = .badField filterBy) ∧
    (∀ (filterBy : List String) (field : String) (vals : List JSVal),
      field ∈ filterBy →
        distinctHandler filterBy field vals =
          .ok (sortValues vals).length (sortValues vals)) ∧
    (∀ vals : List JSVal, (∀ v ∈ vals, ∃ s, v = .str s) →
      (sortValues vals).Pairwise strLe ∧ List.Perm (sortValues vals) vals) ∧
    (∀ vals : List JSVal, (∀ v ∈ vals, ∃ q, v = .num q ∧ 0 < q.den) →
      (sortValues vals).Pairwise numLe ∧ List.Perm (sortValues vals) vals) ∧
    (∀ vals : List JSVal, (∀ a ∈ vals, ∀ b ∈ vals, cmpJS a b = 0) →
      sortValues vals = vals) ∧
    distinctHandler ["grade"] "grade" [.str "B", .str "A", .str "C"] =
      .ok 3 [.str "A", .str "B", .str "C"] := by
  refine ⟨?_, ?_, sortValues_strings, sortValues_numbers, sortValues_all_ties, by decide⟩
  · intro filterBy field vals hmem
    have : isFilterableTS filterBy field = false := by
      cases filterBy with
      | nil => rfl
      | cons a t => simp [isFilterableTS, hmem]
    simp [distinctHandler, this]
  · intro filterBy field vals hmem
    simp [distinctHandler, isFilterableTS_of_mem filterBy field hmem]

/-- Counterexample to C9 as stated: the mixed-type value list
`["b", "a", 1]` is *not* left in storage-returned order — the two strings
are still compared and swapped by the sort. -/
theorem c9_mixed_not_storage_order :
    distinctHandler ["grade"] "grade" [.str "b", .str "a", .num ⟨1, 1⟩] =
      .ok 3 [.str "a", .str "b", .num ⟨1, 1⟩] ∧
    distinctHandler ["grade"] "grade" [.str "b", .str "a", .num ⟨1, 1⟩] ≠
      .ok 3 [.str "b", .str "a", .num ⟨1, 1⟩] := by
  exact ⟨by decide, by decide⟩

/-- Witness for C9 at concrete inputs: the grade scenario and the 400
branch. -/
theorem c9_distinct_endpoint_witness :
    distinctHandler ["grade"] "age" [] = .badField ["grade"] ∧
    distinctHandler ["grade"] "grade" [.str "B", .str "A", .str "C"] =
      .ok (sortValues [.str "B", .str "A", .str "C"]).length
        (sortValues [.str "B", .str "A", .str "C"]) ∧
    List.Perm (sortValues [.str "B", .str "A", .str "C"]) [.str "B", .str "A", .str "C"] :=
  ⟨c9_distinct_endpoint.1 ["grade"] "age" [] (by decide),
   c9_distinct_endpoint.2.1 ["grade"] "grade" [.str "B", .str "A", .str "C"] (by decide),
   (c9_distinct_endpoint.2.2.1 [.str "B", .str "A", .str "C"]
      (by intro v hv; fin_cases hv <;> exact ⟨_, rfl⟩)).2⟩
